import Mathlib

/-!
Shallow embedding of the Hotspot backend (`src/main.py`), a FastAPI service
persisting to two relational tables (`photos`, `votes`) and one object-storage
bucket.  Tables are modelled as lists of rows; every endpoint is a function
from a database state (plus its request data and the values produced by the
external collaborators: generated ids, timestamps, public URLs) to the new
database state and the HTTP-visible response.

Python truthiness of optional strings (`if existing_vote_type:`,
`if not file.filename:`, `if viewer_id and photos:`) is modelled explicitly:
`None` and the empty string are falsy.

The request handlers wrap their whole body in `try/except Exception` and
re-raise any exception as `HTTPException(500, str(e))`.  Since
`fastapi.HTTPException` is itself an `Exception`, the deliberately raised
404/400 exceptions are caught by that blanket handler and surface to the
client as status 500; `str` of a starlette `HTTPException` is
`"{status_code}: {detail}"` rendered as text.  `wrapHTTPError` models this.

Latitude/longitude are floats in the source; no arithmetic is ever performed
on them (they are stored verbatim on upload and never read), so they are
modelled as an opaque decidable-equality carrier (`Int`).
-/

namespace Hotspot

/-- A row of the `photos` table.  `id`, `created_at`, and the zero counters
are generated by the database on insert. -/
structure Photo where
  id : String
  user_id : String
  location_name : String
  image_url : String
  title : Option String
  description : Option String
  latitude : Int
  longitude : Int
  upvotes : Int
  downvotes : Int
  created_at : Nat
deriving Repr, DecidableEq

/-- A row of the `votes` table, keyed by the unique pair
(`user_id`, `photo_id`) (the `on_conflict` columns of the upsert). -/
structure Vote where
  user_id : String
  photo_id : String
  vote_type : String
deriving Repr, DecidableEq

/-- An object stored in the `hotspot_photos` bucket. -/
structure StorageObject where
  path : String
  content : String
  content_type : String
deriving Repr, DecidableEq

/-- The full persistent state reachable from the service. -/
structure DB where
  photos : List Photo
  votes : List Vote
  storage : List StorageObject
deriving Repr, DecidableEq

/-- Body of POST `/vote`. -/
structure VoteRequest where
  photo_id : String
  user_id : String
  vote_type : String
deriving Repr, DecidableEq

/-- The JSON body of a successful POST `/vote` response. -/
structure VoteSuccess where
  vote : String
  new_up : Int
  new_down : Int
deriving Repr, DecidableEq

/-- An `HTTPException`: status code and detail string. -/
structure HttpError where
  status_code : Nat
  detail : String
deriving Repr, DecidableEq

/-- Python truthiness of an optional string: `None` and `""` are falsy. -/
def pyTruthy : Option String → Bool
  | none => false
  | some s => s ≠ ""

/-- The blanket `except Exception as e: raise HTTPException(500, str(e))`
at the end of each handler, applied to an already-raised `HTTPException`;
`str` of a starlette `HTTPException` is `"{status_code}: {detail}"`. -/
def wrapHTTPError (e : HttpError) : HttpError :=
  { status_code := 500, detail := toString e.status_code ++ ": " ++ e.detail }

/-- Key predicate of the `votes` table:
`.eq("user_id", uid).eq("photo_id", pid)`. -/
def vkey (uid pid : String) (v : Vote) : Bool :=
  v.user_id == uid && v.photo_id == pid

/-- `select * from votes where user_id = uid and photo_id = pid`, reading the
first returned row (`existing.data[0]` in the source). -/
def findVote (votes : List Vote) (uid pid : String) : Option Vote :=
  (votes.filter (vkey uid pid)).head?

/-- `select upvotes, downvotes from photos where id = pid`, reading the first
returned row (`photo_data[0]`). -/
def findPhoto (photos : List Photo) (pid : String) : Option Photo :=
  (photos.filter (fun p => p.id == pid)).head?

/-- `delete from votes where user_id = uid and photo_id = pid`. -/
def deleteVote (votes : List Vote) (uid pid : String) : List Vote :=
  votes.filter (fun v => !(vkey uid pid v))

/-- `upsert(vote_data, on_conflict="user_id, photo_id")`: replace the
`vote_type` of the conflicting row when one exists, insert otherwise. -/
def upsertVote (votes : List Vote) (nv : Vote) : List Vote :=
  if votes.any (vkey nv.user_id nv.photo_id) then
    votes.map (fun w =>
      if vkey nv.user_id nv.photo_id w then { w with vote_type := nv.vote_type } else w)
  else
    votes ++ [nv]

/-- `update photos set upvotes = up, downvotes = down where id = pid`. -/
def updatePhotoCounts (photos : List Photo) (pid : String) (up down : Int) : List Photo :=
  photos.map (fun p =>
    if p.id == pid then { p with upvotes := up, downvotes := down } else p)

/-- POST `/vote` (`vote_photo` in `src/main.py`): look up the caller's
existing vote and the photo's counters, compute the reconciled counters,
delete or upsert the vote row, persist the counters, and return them.
A missing photo raises `HTTPException(404)`, which the blanket
`except Exception` converts to a 500 before it reaches the client. -/
def vote_photo (db : DB) (vote : VoteRequest) : DB × Except HttpError VoteSuccess :=
  let existing_vote_type : Option String :=
    (findVote db.votes vote.user_id vote.photo_id).map (fun v => v.vote_type)
  match findPhoto db.photos vote.photo_id with
  | none => (db, Except.error (wrapHTTPError ⟨404, "Photo not found"⟩))
  | some photo =>
    let up := photo.upvotes
    let down := photo.downvotes
    if vote.vote_type == "none" then
      -- Case A: Removing a vote
      let up := if existing_vote_type == some "up" then up - 1 else up
      let down := if existing_vote_type == some "down" then down - 1 else down
      let votes1 :=
        if pyTruthy existing_vote_type then deleteVote db.votes vote.user_id vote.photo_id
        else db.votes
      let photos1 := updatePhotoCounts db.photos vote.photo_id up down
      (⟨photos1, votes1, db.storage⟩, Except.ok ⟨vote.vote_type, up, down⟩)
    else
      -- Case B: New Vote or Switching Vote
      let up := if existing_vote_type == some "up" then up - 1 else up
      let down := if existing_vote_type == some "down" then down - 1 else down
      let up := if vote.vote_type == "up" then up + 1 else up
      let down := if vote.vote_type == "down" then down + 1 else down
      let votes1 := upsertVote db.votes ⟨vote.user_id, vote.photo_id, vote.vote_type⟩
      let photos1 := updatePhotoCounts db.photos vote.photo_id up down
      (⟨photos1, votes1, db.storage⟩, Except.ok ⟨vote.vote_type, up, down⟩)

/-- Multipart form of POST `/upload`; `filename` and `content_type` are the
optional attributes of the `UploadFile`. -/
structure UploadInput where
  user_id : String
  location_name : String
  title : String
  description : String
  latitude : Int
  longitude : Int
  filename : Option String
  content : String
  content_type : Option String
deriving Repr, DecidableEq

/-- POST `/upload` (`upload_photo` in `src/main.py`).  `gen_uuid`, `gen_id`
and `gen_created_at` are the values produced by `uuid.uuid4()` and by the
database's column defaults; `get_public_url` is the object store's URL map.
A missing (or empty, by Python truthiness) filename raises
`HTTPException(400)`, which the blanket `except Exception` converts
to a 500. -/
def upload_photo (db : DB) (inp : UploadInput) (gen_uuid : String)
    (get_public_url : String → String) (gen_id : String) (gen_created_at : Nat) :
    DB × Except HttpError Photo :=
  if pyTruthy inp.filename then
    let filename := inp.filename.getD ""
    let file_ext := (filename.splitOn ".").getLastD ""
    let file_name := gen_uuid ++ "." ++ file_ext
    let file_path := "uploads/" ++ file_name
    let content_type :=
      match inp.content_type with
      | some ct => if ct == "" then "application/octet-stream" else ct
      | none => "application/octet-stream"
    let obj : StorageObject := ⟨file_path, inp.content, content_type⟩
    let public_url := get_public_url file_path
    let new_photo : Photo :=
      { id := gen_id, user_id := inp.user_id, location_name := inp.location_name,
        image_url := public_url, title := some inp.title,
        description := some inp.description, latitude := inp.latitude,
        longitude := inp.longitude, upvotes := 0, downvotes := 0,
        created_at := gen_created_at }
    (⟨db.photos ++ [new_photo], db.votes, db.storage ++ [obj]⟩, Except.ok new_photo)
  else
    (db, Except.error (wrapHTTPError ⟨400, "File must have a filename"⟩))

/-- The `PhotoResponse` pydantic model: the photo row as serialised by the
listing endpoints (latitude/longitude are not part of the response model),
plus the optional `user_vote` annotation. -/
structure PhotoResponse where
  id : String
  user_id : String
  location_name : String
  image_url : String
  title : Option String
  description : Option String
  upvotes : Int
  downvotes : Int
  created_at : Nat
  user_vote : Option String
deriving Repr, DecidableEq

/-- Serialise a photo row through the `PhotoResponse` model with a given
`user_vote` annotation. -/
def toResponse (p : Photo) (uv : Option String) : PhotoResponse :=
  ⟨p.id, p.user_id, p.location_name, p.image_url, p.title, p.description,
   p.upvotes, p.downvotes, p.created_at, uv⟩

/-- Lookup in a Python dict built by comprehension: the last binding for a
key wins. -/
def dictGet (pairs : List (String × String)) (key : String) : Option String :=
  ((pairs.filter (fun kv => kv.1 == key)).map (fun kv => kv.2)).getLast?

/-- The `viewer_id` annotation pass shared by both listing endpoints: fetch
the viewer's votes restricted to the listed photo ids, build
`vote_map = {photo_id: vote_type}`, and set `user_vote` on each photo. -/
def annotate (votes : List Vote) (viewer : String) (photos : List Photo) :
    List PhotoResponse :=
  let photo_ids := photos.map (fun p => p.id)
  let votes_data :=
    votes.filter (fun v => v.user_id == viewer && photo_ids.contains v.photo_id)
  let vote_map := votes_data.map (fun v => (v.photo_id, v.vote_type))
  photos.map (fun p => toResponse p (dictGet vote_map p.id))

/-- The row order produced by `order("created_at", desc=True)`: descending
creation timestamp. -/
def createdDesc : Photo → Photo → Prop := fun a b => b.created_at ≤ a.created_at

instance : DecidableRel createdDesc := fun a b => Nat.decLe b.created_at a.created_at

instance : IsTotal Photo createdDesc := ⟨fun a b => Nat.le_total b.created_at a.created_at⟩

instance : IsTrans Photo createdDesc :=
  ⟨fun _ _ _ hab hbc => Nat.le_trans hbc hab⟩

/-- `order("created_at", desc=True)`: newest first.  The store promises only
the ordering, so any sort realises it; a structural insertion sort is used. -/
def newestFirst (photos : List Photo) : List Photo :=
  photos.insertionSort createdDesc

/-- GET `/locations/{location_name}/photos`: the photos whose
`location_name` equals the path parameter, newest first, annotated with the
viewer's votes when `viewer_id` is truthy and the result is non-empty.
The database is read-only here; it is threaded through unchanged. -/
def get_location_photos (db : DB) (location_name : String)
    (viewer_id : Option String) : DB × List PhotoResponse :=
  let photos := newestFirst (db.photos.filter (fun p => p.location_name == location_name))
  if pyTruthy viewer_id && !photos.isEmpty then
    (db, annotate db.votes (viewer_id.getD "") photos)
  else
    (db, photos.map (fun p => toResponse p none))

/-- GET `/users/{user_id}/photos`: identical to the location listing with
the filter on the uploader instead. -/
def get_user_photos (db : DB) (user_id : String)
    (viewer_id : Option String) : DB × List PhotoResponse :=
  let photos := newestFirst (db.photos.filter (fun p => p.user_id == user_id))
  if pyTruthy viewer_id && !photos.isEmpty then
    (db, annotate db.votes (viewer_id.getD "") photos)
  else
    (db, photos.map (fun p => toResponse p none))

/-- Number of stored vote records for photo `pid` of type `t`. -/
def countVotes (votes : List Vote) (pid t : String) : Nat :=
  (votes.filter (fun v => v.photo_id == pid && v.vote_type == t)).length

/-- A single photo row's counters agree with the vote records. -/
def photoConsistent (votes : List Vote) (p : Photo) : Prop :=
  p.upvotes = (countVotes votes p.id "up" : Int) ∧
  p.downvotes = (countVotes votes p.id "down" : Int)

/-- The §3 invariant: every photo's counters equal its vote-record counts. -/
def Consistent (db : DB) : Prop :=
  ∀ p ∈ db.photos, photoConsistent db.votes p

/-- The unique constraint on (`user_id`, `photo_id`) that the source's
`on_conflict="user_id, photo_id"` upsert declares. -/
def VotesUnique (votes : List Vote) : Prop :=
  votes.Pairwise (fun v w => v.user_id ≠ w.user_id ∨ v.photo_id ≠ w.photo_id)

/-- The `photos.id` primary-key constraint. -/
def PhotosUnique (photos : List Photo) : Prop :=
  photos.Pairwise (fun p q => p.id ≠ q.id)

/-- Run a sequence of POST `/vote` calls sequentially, keeping the state. -/
def applyVotes (db : DB) (reqs : List VoteRequest) : DB :=
  reqs.foldl (fun d r => (vote_photo d r).1) db

instance (votes : List Vote) (p : Photo) : Decidable (photoConsistent votes p) := by
  unfold photoConsistent; infer_instance

instance (db : DB) : Decidable (Consistent db) := by
  unfold Consistent; infer_instance

instance (votes : List Vote) : Decidable (VotesUnique votes) := by
  unfold VotesUnique; infer_instance

instance (photos : List Photo) : Decidable (PhotosUnique photos) := by
  unfold PhotosUnique; infer_instance

/-! ### Basic facts about row lookup and the key predicates -/

theorem vkey_eq {uid pid : String} {v : Vote} (h : vkey uid pid v = true) :
    v.user_id = uid ∧ v.photo_id = pid := by
  unfold vkey at h
  rcases Bool.and_eq_true_iff.mp h with ⟨h1, h2⟩
  exact ⟨beq_iff_eq.mp h1, beq_iff_eq.mp h2⟩

theorem vkey_self (uid pid vt : String) : vkey uid pid ⟨uid, pid, vt⟩ = true := by
  simp [vkey]

theorem head?_filter {α : Type} {l : List α} {p : α → Bool} {a : α}
    (h : (l.filter p).head? = some a) : a ∈ l ∧ p a = true := by
  have hm : a ∈ l.filter p := by
    cases hf : l.filter p with
    | nil => rw [hf] at h; cases h
    | cons x xs =>
      rw [hf] at h
      simp only [List.head?_cons, Option.some.injEq] at h
      rw [← h]; exact List.mem_cons_self x xs
  exact ⟨List.mem_of_mem_filter hm, List.of_mem_filter hm⟩

theorem findVote_mem {votes : List Vote} {uid pid : String} {v : Vote}
    (h : findVote votes uid pid = some v) :
    v ∈ votes ∧ v.user_id = uid ∧ v.photo_id = pid := by
  obtain ⟨hm, hk⟩ := head?_filter h
  exact ⟨hm, vkey_eq hk⟩

theorem findPhoto_mem {photos : List Photo} {pid : String} {q : Photo}
    (h : findPhoto photos pid = some q) : q ∈ photos ∧ q.id = pid := by
  obtain ⟨hm, hk⟩ := head?_filter h
  exact ⟨hm, beq_iff_eq.mp hk⟩

theorem filter_vkey_nil {votes : List Vote} {uid pid : String}
    (h : findVote votes uid pid = none) : votes.filter (vkey uid pid) = [] := by
  unfold findVote at h
  exact List.head?_eq_none_iff.mp h

theorem filter_vkey_singleton {votes : List Vote} {uid pid : String} {v : Vote}
    (hu : VotesUnique votes) (h : findVote votes uid pid = some v) :
    votes.filter (vkey uid pid) = [v] := by
  induction votes with
  | nil => cases h
  | cons w ws ih =>
    rcases List.pairwise_cons.mp hu with ⟨hw, hws⟩
    by_cases hk : vkey uid pid w = true
    · have hfw : (w :: ws).filter (vkey uid pid) = w :: ws.filter (vkey uid pid) := by
        simp [List.filter_cons, hk]
      have hv : v = w := by
        unfold findVote at h
        rw [hfw] at h
        simp only [List.head?_cons, Option.some.injEq] at h
        exact h.symm
      have hnil : ws.filter (vkey uid pid) = [] := by
        rw [List.filter_eq_nil_iff]
        intro x hx hxk
        obtain ⟨hxu, hxp⟩ := vkey_eq hxk
        obtain ⟨hwu, hwp⟩ := vkey_eq hk
        rcases hw x hx with hne | hne
        · exact hne (hwu.trans hxu.symm)
        · exact hne (hwp.trans hxp.symm)
      rw [hfw, hnil, hv]
    · have hfw : (w :: ws).filter (vkey uid pid) = ws.filter (vkey uid pid) := by
        simp [List.filter_cons, hk]
      have h2 : findVote ws uid pid = some v := by
        unfold findVote at h ⊢; rw [hfw] at h; exact h
      rw [hfw]
      exact ih hws h2

theorem any_vkey_true {votes : List Vote} {uid pid : String} {v : Vote}
    (h : findVote votes uid pid = some v) :
    votes.any (vkey uid pid) = true := by
  obtain ⟨hm, hk⟩ := head?_filter h
  exact List.any_eq_true.mpr ⟨v, hm, hk⟩

theorem any_vkey_false {votes : List Vote} {uid pid : String}
    (h : findVote votes uid pid = none) : votes.any (vkey uid pid) = false := by
  have := filter_vkey_nil h
  rw [List.any_eq_false]
  intro x hx hxk
  have : x ∈ votes.filter (vkey uid pid) := List.mem_filter.mpr ⟨hx, hxk⟩
  rw [filter_vkey_nil h] at this
  cases this

/-! ### Counting vote records through the table operations -/

/-- The vote-count predicate for photo `pid` and type `t`. -/
def vpred (pid t : String) (v : Vote) : Bool :=
  v.photo_id == pid && v.vote_type == t

theorem countVotes_eq_countP (votes : List Vote) (pid t : String) :
    countVotes votes pid t = votes.countP (vpred pid t) := by
  unfold countVotes vpred
  rw [List.countP_eq_length_filter]

theorem countP_filter_add {α : Type} (l : List α) (p q : α → Bool) :
    (l.filter q).countP p + (l.filter (fun a => !(q a))).countP p = l.countP p := by
  induction l with
  | nil => simp
  | cons a l ih =>
    by_cases hq : q a = true <;>
      simp [List.filter_cons, List.countP_cons, hq] <;> omega

theorem countVotes_delete_of_some {votes : List Vote} {uid pid : String} {w : Vote}
    (hu : VotesUnique votes) (hf : findVote votes uid pid = some w)
    (pid' t : String) :
    countVotes (deleteVote votes uid pid) pid' t
      + (if w.photo_id == pid' && w.vote_type == t then 1 else 0)
      = countVotes votes pid' t := by
  have hpart := countP_filter_add votes (vpred pid' t) (vkey uid pid)
  rw [filter_vkey_singleton hu hf] at hpart
  rw [countVotes_eq_countP, countVotes_eq_countP]
  unfold deleteVote
  rw [List.countP_eq_length_filter, ← List.countP_eq_length_filter]
  have hone : List.countP (vpred pid' t) [w]
      = if w.photo_id == pid' && w.vote_type == t then 1 else 0 := by
    simp only [List.countP_cons, List.countP_nil, vpred]
    by_cases hb : (w.photo_id == pid' && w.vote_type == t) = true <;> simp [hb]
  rw [hone] at hpart
  omega

theorem countVotes_delete_of_none {votes : List Vote} {uid pid : String}
    (hf : findVote votes uid pid = none) :
    deleteVote votes uid pid = votes := by
  unfold deleteVote
  rw [List.filter_eq_self]
  intro v hv
  have hnk : vkey uid pid v = false := by
    by_cases hk : vkey uid pid v = true
    · have : v ∈ votes.filter (vkey uid pid) := List.mem_filter.mpr ⟨hv, hk⟩
      rw [filter_vkey_nil hf] at this
      cases this
    · exact Bool.not_eq_true _ ▸ Bool.of_not_eq_true hk
  simp [hnk]

theorem countVotes_upsert_of_none {votes : List Vote} {uid pid : String} (vt : String)
    (hf : findVote votes uid pid = none) (pid' t : String) :
    countVotes (upsertVote votes ⟨uid, pid, vt⟩) pid' t
      = countVotes votes pid' t + (if pid == pid' && vt == t then 1 else 0) := by
  unfold upsertVote
  rw [if_neg (by simp [any_vkey_false hf])]
  rw [countVotes_eq_countP, countVotes_eq_countP, List.countP_append]
  have : List.countP (vpred pid' t) [(⟨uid, pid, vt⟩ : Vote)]
      = if pid == pid' && vt == t then 1 else 0 := by
    by_cases hb : (pid == pid' && vt == t) = true
    · simp [List.countP_cons, vpred, hb]
    · simp only [List.countP_cons, List.countP_nil, vpred]
      simp only [Bool.not_eq_true] at hb
      simp [hb]
  rw [this]

theorem countVotes_upsert_of_some {votes : List Vote} {uid pid : String} (vt : String)
    {w : Vote}
    (hu : VotesUnique votes) (hf : findVote votes uid pid = some w)
    (pid' t : String) :
    countVotes (upsertVote votes ⟨uid, pid, vt⟩) pid' t
      + (if w.photo_id == pid' && w.vote_type == t then 1 else 0)
      = countVotes votes pid' t + (if pid == pid' && vt == t then 1 else 0) := by
  obtain ⟨hwmem, hwu, hwp⟩ := findVote_mem hf
  unfold upsertVote
  rw [if_pos (by simpa using any_vkey_true hf)]
  rw [countVotes_eq_countP, countVotes_eq_countP, List.countP_map]
  set f : Vote → Vote := fun v =>
    if vkey uid pid v = true then { v with vote_type := vt } else v with hfdef
  have hsplit := countP_filter_add votes (fun v => vpred pid' t (f v)) (vkey uid pid)
  rw [filter_vkey_singleton hu hf] at hsplit
  have hw1 : List.countP (fun v => vpred pid' t (f v)) [w]
      = if pid == pid' && vt == t then 1 else 0 := by
    have hkw : vkey uid pid w = true := by simp [vkey, hwu, hwp]
    have : f w = { w with vote_type := vt } := by rw [hfdef]; simp [hkw]
    simp only [List.countP_cons, List.countP_nil, this]
    have : vpred pid' t { w with vote_type := vt } = (pid == pid' && vt == t) := by
      simp [vpred, hwp]
    rw [this]
    by_cases hb : (pid == pid' && vt == t) = true <;> simp [hb]
  have hw2 : List.countP (fun v => vpred pid' t (f v))
        (votes.filter (fun v => !(vkey uid pid v)))
      = List.countP (vpred pid' t) (votes.filter (fun v => !(vkey uid pid v))) := by
    apply List.countP_congr
    intro v hv
    have hnk : vkey uid pid v = false := by
      have := (List.mem_filter.mp hv).2
      simpa using this
    have : f v = v := by rw [hfdef]; simp [hnk]
    rw [this]
  have hpart := countP_filter_add votes (vpred pid' t) (vkey uid pid)
  rw [filter_vkey_singleton hu hf] at hpart
  have hone : List.countP (vpred pid' t) [w]
      = if w.photo_id == pid' && w.vote_type == t then 1 else 0 := by
    simp only [List.countP_cons, List.countP_nil, vpred]
    by_cases hb : (w.photo_id == pid' && w.vote_type == t) = true <;> simp [hb]
  rw [hw1, hw2] at hsplit
  rw [hone] at hpart
  have hgoal : List.countP (vpred pid' t ∘ f) votes
      = List.countP (fun v => vpred pid' t (f v)) votes := rfl
  rw [hgoal]
  by_cases h1 : (w.photo_id == pid' && w.vote_type == t) = true <;>
    by_cases h2 : (pid == pid' && vt == t) = true <;>
      simp only [h1, h2, if_true, if_false, Bool.not_eq_true, if_pos, if_neg] at hsplit hpart ⊢ <;>
        omega

/-! ### Structural lemmas about upsert, delete and the counter update -/

theorem upsert_map_keys (uid pid vt : String) (v : Vote) :
    ((if vkey uid pid v = true then { v with vote_type := vt } else v) : Vote).user_id
        = v.user_id ∧
    ((if vkey uid pid v = true then { v with vote_type := vt } else v) : Vote).photo_id
        = v.photo_id := by
  by_cases hk : vkey uid pid v = true <;> simp [hk]

theorem findVote_upsert (votes : List Vote) (uid pid vt : String) :
    findVote (upsertVote votes ⟨uid, pid, vt⟩) uid pid = some ⟨uid, pid, vt⟩ := by
  unfold upsertVote
  by_cases ha : votes.any (vkey uid pid) = true
  · rw [if_pos (by simpa using ha)]
    set f : Vote → Vote := fun v =>
      if vkey uid pid v = true then { v with vote_type := vt } else v with hfdef
    unfold findVote
    have hkf : ∀ v : Vote, vkey uid pid (f v) = vkey uid pid v := by
      intro v
      obtain ⟨h1, h2⟩ := upsert_map_keys uid pid vt v
      unfold vkey
      rw [hfdef]; rw [h1, h2]
    have hfm : (votes.map f).filter (vkey uid pid)
        = (votes.filter (vkey uid pid)).map f := by
      rw [List.filter_map]
      congr 1
      apply List.filter_congr
      intro v _
      exact (hkf v).symm ▸ rfl
    rw [hfm]
    obtain ⟨w, hw, hkw⟩ := List.any_eq_true.mp ha
    cases hhead : (votes.filter (vkey uid pid)).head? with
    | none =>
      exfalso
      have : w ∈ votes.filter (vkey uid pid) := List.mem_filter.mpr ⟨hw, hkw⟩
      rw [List.head?_eq_none_iff.mp hhead] at this
      cases this
    | some u =>
      obtain ⟨hum, huk⟩ := head?_filter hhead
      obtain ⟨huu, hup⟩ := vkey_eq huk
      rw [List.head?_map, hhead]
      have : f u = ⟨uid, pid, vt⟩ := by
        rw [hfdef]; simp only [huk, if_true]
        cases u
        simp_all
      simp [this]
  · rw [if_neg (by simpa using ha)]
    unfold findVote
    rw [List.filter_append]
    have h1 : votes.filter (vkey uid pid) = [] := by
      rw [List.filter_eq_nil_iff]
      intro v hv
      exact List.any_eq_false.mp (by simpa using ha) v hv
    have h2 : List.filter (vkey uid pid) [(⟨uid, pid, vt⟩ : Vote)] = [⟨uid, pid, vt⟩] := by
      simp [List.filter_cons, vkey_self]
    rw [h1, h2]
    rfl

theorem upsertVote_eq_append {votes : List Vote} {uid pid : String}
    (hf : findVote votes uid pid = none) (vt : String) :
    upsertVote votes ⟨uid, pid, vt⟩ = votes ++ [⟨uid, pid, vt⟩] := by
  unfold upsertVote
  rw [if_neg (by simp [any_vkey_false hf])]

theorem deleteVote_append_new {votes : List Vote} {uid pid : String}
    (hf : findVote votes uid pid = none) (vt : String) :
    deleteVote (votes ++ [⟨uid, pid, vt⟩]) uid pid = votes := by
  unfold deleteVote
  rw [List.filter_append]
  have h2 : List.filter (fun v => !(vkey uid pid v)) [(⟨uid, pid, vt⟩ : Vote)] = [] := by
    simp [List.filter_cons, vkey_self]
  rw [h2, List.append_nil]
  have := countVotes_delete_of_none hf
  unfold deleteVote at this
  exact this

theorem upsertVote_eq_self {votes : List Vote} {uid pid vt : String}
    (hu : VotesUnique votes)
    (hf : findVote votes uid pid = some ⟨uid, pid, vt⟩) :
    upsertVote votes ⟨uid, pid, vt⟩ = votes := by
  unfold upsertVote
  rw [if_pos (by simpa using any_vkey_true hf)]
  have hsing := filter_vkey_singleton hu hf
  have : ∀ v ∈ votes,
      (if vkey uid pid v = true then ({ v with vote_type := vt } : Vote) else v) = v := by
    intro v hv
    by_cases hk : vkey uid pid v = true
    · have : v ∈ votes.filter (vkey uid pid) := List.mem_filter.mpr ⟨hv, hk⟩
      rw [hsing] at this
      have hv' : v = ⟨uid, pid, vt⟩ := by simpa using this
      rw [if_pos hk, hv']
    · rw [if_neg hk]
  calc votes.map (fun v =>
          if vkey uid pid v = true then ({ v with vote_type := vt } : Vote) else v)
      = votes.map id := List.map_congr_left this
    _ = votes := List.map_id votes

theorem findPhoto_update (photos : List Photo) (pid : String) (u d : Int) :
    findPhoto (updatePhotoCounts photos pid u d) pid
      = (findPhoto photos pid).map (fun p => { p with upvotes := u, downvotes := d }) := by
  unfold updatePhotoCounts findPhoto
  set g : Photo → Photo := fun p =>
    if p.id == pid then { p with upvotes := u, downvotes := d } else p with hgdef
  have hid : ∀ p : Photo, (g p).id = p.id := by
    intro p
    rw [hgdef]
    by_cases hk : (p.id == pid) = true <;> simp [hk]
  have hfm : (photos.map g).filter (fun p => p.id == pid)
      = (photos.filter (fun p => p.id == pid)).map g := by
    rw [List.filter_map]
    congr 1
    apply List.filter_congr
    intro p _
    show ((g p).id == pid) = (p.id == pid)
    rw [hid p]
  rw [hfm, List.head?_map]
  cases hhead : (photos.filter (fun p => p.id == pid)).head? with
  | none => rfl
  | some q =>
    obtain ⟨hm, hk⟩ := head?_filter hhead
    show some (g q) = some ({ q with upvotes := u, downvotes := d })
    rw [hgdef]
    simp [hk]

theorem updatePhotoCounts_eq_self {photos : List Photo} {pid : String} {u d : Int}
    (h : ∀ p ∈ photos, p.id = pid → p.upvotes = u ∧ p.downvotes = d) :
    updatePhotoCounts photos pid u d = photos := by
  unfold updatePhotoCounts
  have : ∀ p ∈ photos,
      (if p.id == pid then ({ p with upvotes := u, downvotes := d } : Photo) else p) = p := by
    intro p hp
    by_cases hk : (p.id == pid) = true
    · obtain ⟨h1, h2⟩ := h p hp (beq_iff_eq.mp hk)
      rw [if_pos hk, ← h1, ← h2]
    · rw [if_neg hk]
  calc photos.map (fun p =>
          if p.id == pid then ({ p with upvotes := u, downvotes := d } : Photo) else p)
      = photos.map id := List.map_congr_left this
    _ = photos := List.map_id photos

theorem filter_pid_singleton {photos : List Photo} {pid : String} {q : Photo}
    (hu : PhotosUnique photos) (hq : findPhoto photos pid = some q) :
    photos.filter (fun p => p.id == pid) = [q] := by
  induction photos with
  | nil => cases hq
  | cons x xs ih =>
    rcases List.pairwise_cons.mp hu with ⟨hx, hxs⟩
    by_cases hk : (x.id == pid) = true
    · have hfw : (x :: xs).filter (fun p => p.id == pid)
          = x :: xs.filter (fun p => p.id == pid) := by
        simp [List.filter_cons, hk]
      have hvx : q = x := by
        unfold findPhoto at hq
        rw [hfw] at hq
        simp only [List.head?_cons, Option.some.injEq] at hq
        exact hq.symm
      have hnil : xs.filter (fun p => p.id == pid) = [] := by
        rw [List.filter_eq_nil_iff]
        intro y hy hyk
        exact (hx y hy) ((beq_iff_eq.mp hk).trans (beq_iff_eq.mp hyk).symm)
      rw [hfw, hnil, hvx]
    · have hfw : (x :: xs).filter (fun p => p.id == pid)
          = xs.filter (fun p => p.id == pid) := by
        simp [List.filter_cons, hk]
      have hq2 : findPhoto xs pid = some q := by
        unfold findPhoto at hq ⊢
        rw [hfw] at hq
        exact hq
      rw [hfw]
      exact ih hxs hq2

theorem photos_unique_find {photos : List Photo} {pid : String} {q : Photo}
    (hu : PhotosUnique photos) (hq : findPhoto photos pid = some q) :
    ∀ p ∈ photos, p.id = pid → p = q := by
  intro p hp hpid
  have hm : p ∈ photos.filter (fun p => p.id == pid) :=
    List.mem_filter.mpr ⟨hp, by simp [hpid]⟩
  rw [filter_pid_singleton hu hq] at hm
  simpa using hm

/-! ### Preservation of the key-uniqueness constraints -/

theorem VotesUnique_delete {votes : List Vote} (uid pid : String)
    (hu : VotesUnique votes) : VotesUnique (deleteVote votes uid pid) :=
  hu.filter _

theorem VotesUnique_upsert {votes : List Vote} (uid pid vt : String)
    (hu : VotesUnique votes) : VotesUnique (upsertVote votes ⟨uid, pid, vt⟩) := by
  unfold upsertVote
  by_cases ha : votes.any (vkey uid pid) = true
  · rw [if_pos (by simpa using ha)]
    unfold VotesUnique
    rw [List.pairwise_map]
    apply hu.imp
    intro a b hab
    obtain ⟨ha1, ha2⟩ := upsert_map_keys uid pid vt a
    obtain ⟨hb1, hb2⟩ := upsert_map_keys uid pid vt b
    rw [ha1, ha2, hb1, hb2]
    exact hab
  · rw [if_neg (by simpa using ha)]
    unfold VotesUnique
    rw [List.pairwise_append]
    refine ⟨hu, List.pairwise_singleton _ _, ?_⟩
    intro a hamem b hbmem
    have hb : b = (⟨uid, pid, vt⟩ : Vote) := by simpa using hbmem
    have hak : ¬ (vkey uid pid a = true) :=
      List.any_eq_false.mp (by simpa using ha) a hamem
    rw [hb]
    by_cases h1 : a.user_id = uid
    · right
      intro h2
      exact hak (by simp [vkey, h1, h2])
    · left; exact h1

theorem PhotosUnique_update {photos : List Photo} (pid : String) (u d : Int)
    (hu : PhotosUnique photos) : PhotosUnique (updatePhotoCounts photos pid u d) := by
  unfold updatePhotoCounts PhotosUnique
  rw [List.pairwise_map]
  apply hu.imp
  intro a b hab
  by_cases h1 : (a.id == pid) = true <;> by_cases h2 : (b.id == pid) = true <;>
    simp [h1, h2, hab]

/-! ### The reconciliation step preserves the counter invariant -/

theorem consistent_after {photos : List Photo} {votes newVotes : List Vote}
    {pid : String} {U D : Int} {st : List StorageObject}
    (hc : ∀ p ∈ photos, photoConsistent votes p)
    (hother : ∀ pid' t, pid' ≠ pid → countVotes newVotes pid' t = countVotes votes pid' t)
    (hU : (countVotes newVotes pid "up" : Int) = U)
    (hD : (countVotes newVotes pid "down" : Int) = D) :
    Consistent ⟨updatePhotoCounts photos pid U D, newVotes, st⟩ := by
  intro p1 hp1
  show photoConsistent newVotes p1
  change p1 ∈ updatePhotoCounts photos pid U D at hp1
  unfold updatePhotoCounts at hp1
  obtain ⟨p, hpmem, hpeq⟩ := List.mem_map.mp hp1
  by_cases hk : (p.id == pid) = true
  · rw [if_pos hk] at hpeq
    rw [← hpeq]
    have hpid : p.id = pid := beq_iff_eq.mp hk
    constructor
    · show U = (countVotes newVotes p.id "up" : Int)
      rw [hpid, hU]
    · show D = (countVotes newVotes p.id "down" : Int)
      rw [hpid, hD]
  · rw [if_neg hk] at hpeq
    rw [← hpeq]
    have hpid : p.id ≠ pid := by simpa using hk
    obtain ⟨h1, h2⟩ := hc p hpmem
    exact ⟨h1.trans (by rw [hother p.id "up" hpid]),
           h2.trans (by rw [hother p.id "down" hpid])⟩

/-! ### Branch shapes of the reconciliation operation -/

theorem vote_photo_shape_none_noprior (db : DB) (req : VoteRequest) {photo : Photo}
    (hp : findPhoto db.photos req.photo_id = some photo)
    (hf : findVote db.votes req.user_id req.photo_id = none)
    (hnone : req.vote_type = "none") :
    vote_photo db req
      = (⟨updatePhotoCounts db.photos req.photo_id photo.upvotes photo.downvotes,
          db.votes, db.storage⟩,
         Except.ok ⟨req.vote_type, photo.upvotes, photo.downvotes⟩) := by
  simp [vote_photo, hp, hf, hnone, pyTruthy]

theorem vote_photo_shape_none_prior (db : DB) (req : VoteRequest) {photo : Photo} {w : Vote}
    (hp : findPhoto db.photos req.photo_id = some photo)
    (hf : findVote db.votes req.user_id req.photo_id = some w)
    (hnone : req.vote_type = "none") :
    vote_photo db req
      = (⟨updatePhotoCounts db.photos req.photo_id
            (if w.vote_type = "up" then photo.upvotes - 1 else photo.upvotes)
            (if w.vote_type = "down" then photo.downvotes - 1 else photo.downvotes),
          if w.vote_type = "" then db.votes
          else deleteVote db.votes req.user_id req.photo_id,
          db.storage⟩,
         Except.ok ⟨req.vote_type,
            if w.vote_type = "up" then photo.upvotes - 1 else photo.upvotes,
            if w.vote_type = "down" then photo.downvotes - 1 else photo.downvotes⟩) := by
  simp only [vote_photo, hp, hf, hnone, Option.map_some]
  by_cases h1 : w.vote_type = "up" <;> by_cases h2 : w.vote_type = "down" <;>
    by_cases h3 : w.vote_type = "" <;>
      simp_all [pyTruthy]

theorem vote_photo_shape_upsert_noprior (db : DB) (req : VoteRequest) {photo : Photo}
    (hp : findPhoto db.photos req.photo_id = some photo)
    (hf : findVote db.votes req.user_id req.photo_id = none)
    (hnone : req.vote_type ≠ "none") :
    vote_photo db req
      = (⟨updatePhotoCounts db.photos req.photo_id
            (photo.upvotes + (if req.vote_type = "up" then 1 else 0))
            (photo.downvotes + (if req.vote_type = "down" then 1 else 0)),
          upsertVote db.votes ⟨req.user_id, req.photo_id, req.vote_type⟩,
          db.storage⟩,
         Except.ok ⟨req.vote_type,
            photo.upvotes + (if req.vote_type = "up" then 1 else 0),
            photo.downvotes + (if req.vote_type = "down" then 1 else 0)⟩) := by
  simp only [vote_photo, hp, hf, Option.map_none]
  by_cases h1 : req.vote_type = "up" <;> by_cases h2 : req.vote_type = "down" <;>
    simp_all

theorem vote_photo_shape_upsert_prior (db : DB) (req : VoteRequest) {photo : Photo} {w : Vote}
    (hp : findPhoto db.photos req.photo_id = some photo)
    (hf : findVote db.votes req.user_id req.photo_id = some w)
    (hnone : req.vote_type ≠ "none") :
    vote_photo db req
      = (⟨updatePhotoCounts db.photos req.photo_id
            ((if w.vote_type = "up" then photo.upvotes - 1 else photo.upvotes)
              + (if req.vote_type = "up" then 1 else 0))
            ((if w.vote_type = "down" then photo.downvotes - 1 else photo.downvotes)
              + (if req.vote_type = "down" then 1 else 0)),
          upsertVote db.votes ⟨req.user_id, req.photo_id, req.vote_type⟩,
          db.storage⟩,
         Except.ok ⟨req.vote_type,
            (if w.vote_type = "up" then photo.upvotes - 1 else photo.upvotes)
              + (if req.vote_type = "up" then 1 else 0),
            (if w.vote_type = "down" then photo.downvotes - 1 else photo.downvotes)
              + (if req.vote_type = "down" then 1 else 0)⟩) := by
  simp only [vote_photo, hp, hf, Option.map_some]
  by_cases h1 : req.vote_type = "up" <;> by_cases h2 : req.vote_type = "down" <;>
    by_cases h3 : w.vote_type = "up" <;> by_cases h4 : w.vote_type = "down" <;>
      simp_all

theorem vote_photo_shape_notfound (db : DB) (req : VoteRequest)
    (hp : findPhoto db.photos req.photo_id = none) :
    vote_photo db req = (db, Except.error (wrapHTTPError ⟨404, "Photo not found"⟩)) := by
  simp [vote_photo, hp]

theorem vote_photo_preserves (db : DB) (req : VoteRequest)
    (hu : VotesUnique db.votes) (hc : Consistent db) :
    VotesUnique (vote_photo db req).1.votes ∧ Consistent (vote_photo db req).1 := by
  rcases hpc : findPhoto db.photos req.photo_id with _ | photo
  · rw [vote_photo_shape_notfound db req hpc]
    exact ⟨hu, hc⟩
  obtain ⟨hpm, hpid⟩ := findPhoto_mem hpc
  obtain ⟨hcu, hcd⟩ := hc photo hpm
  rw [hpid] at hcu hcd
  by_cases hnone : req.vote_type = "none"
  · rcases hfc : findVote db.votes req.user_id req.photo_id with _ | w
    · rw [vote_photo_shape_none_noprior db req hpc hfc hnone]
      exact ⟨hu, consistent_after hc (fun _ _ _ => rfl) hcu.symm hcd.symm⟩
    · obtain ⟨hwm, hwu, hwp⟩ := findVote_mem hfc
      rw [vote_photo_shape_none_prior db req hpc hfc hnone]
      by_cases hemp : w.vote_type = ""
      · rw [if_pos hemp]
        have hU : (countVotes db.votes req.photo_id "up" : Int)
            = if w.vote_type = "up" then photo.upvotes - 1 else photo.upvotes := by
          rw [if_neg (show ¬ w.vote_type = "up" by simp [hemp])]
          exact hcu.symm
        have hD : (countVotes db.votes req.photo_id "down" : Int)
            = if w.vote_type = "down" then photo.downvotes - 1 else photo.downvotes := by
          rw [if_neg (show ¬ w.vote_type = "down" by simp [hemp])]
          exact hcd.symm
        exact ⟨hu, consistent_after hc (fun _ _ _ => rfl) hU hD⟩
      · rw [if_neg hemp]
        have hother : ∀ pid' t, pid' ≠ req.photo_id →
            countVotes (deleteVote db.votes req.user_id req.photo_id) pid' t
              = countVotes db.votes pid' t := by
          intro pid' t hne
          have h := countVotes_delete_of_some hu hfc pid' t
          have hb : (w.photo_id == pid') = false := by
            rw [hwp]; exact beq_eq_false_iff_ne.mpr (Ne.symm hne)
          rw [hb] at h
          simpa using h
        have hU : (countVotes (deleteVote db.votes req.user_id req.photo_id)
              req.photo_id "up" : Int)
            = if w.vote_type = "up" then photo.upvotes - 1 else photo.upvotes := by
          have h := countVotes_delete_of_some hu hfc req.photo_id "up"
          by_cases hb : w.vote_type = "up" <;> simp [hwp, hb] at h <;> simp [hb] <;> omega
        have hD : (countVotes (deleteVote db.votes req.user_id req.photo_id)
              req.photo_id "down" : Int)
            = if w.vote_type = "down" then photo.downvotes - 1 else photo.downvotes := by
          have h := countVotes_delete_of_some hu hfc req.photo_id "down"
          by_cases hb : w.vote_type = "down" <;> simp [hwp, hb] at h <;> simp [hb] <;> omega
        exact ⟨VotesUnique_delete _ _ hu, consistent_after hc hother hU hD⟩
  · rcases hfc : findVote db.votes req.user_id req.photo_id with _ | w
    · rw [vote_photo_shape_upsert_noprior db req hpc hfc hnone]
      have hother : ∀ pid' t, pid' ≠ req.photo_id →
          countVotes (upsertVote db.votes ⟨req.user_id, req.photo_id, req.vote_type⟩) pid' t
            = countVotes db.votes pid' t := by
        intro pid' t hne
        have h := countVotes_upsert_of_none req.vote_type hfc pid' t
        have hb : (req.photo_id == pid') = false := beq_eq_false_iff_ne.mpr (Ne.symm hne)
        rw [hb] at h
        simpa using h
      have hU : (countVotes (upsertVote db.votes ⟨req.user_id, req.photo_id, req.vote_type⟩)
            req.photo_id "up" : Int)
          = photo.upvotes + (if req.vote_type = "up" then 1 else 0) := by
        have h := countVotes_upsert_of_none req.vote_type hfc req.photo_id "up"
        by_cases hb : req.vote_type = "up" <;> simp [hb] at h <;> simp [hb] <;> omega
      have hD : (countVotes (upsertVote db.votes ⟨req.user_id, req.photo_id, req.vote_type⟩)
            req.photo_id "down" : Int)
          = photo.downvotes + (if req.vote_type = "down" then 1 else 0) := by
        have h := countVotes_upsert_of_none req.vote_type hfc req.photo_id "down"
        by_cases hb : req.vote_type = "down" <;> simp [hb] at h <;> simp [hb] <;> omega
      exact ⟨VotesUnique_upsert _ _ _ hu, consistent_after hc hother hU hD⟩
    · obtain ⟨hwm, hwu, hwp⟩ := findVote_mem hfc
      rw [vote_photo_shape_upsert_prior db req hpc hfc hnone]
      have hother : ∀ pid' t, pid' ≠ req.photo_id →
          countVotes (upsertVote db.votes ⟨req.user_id, req.photo_id, req.vote_type⟩) pid' t
            = countVotes db.votes pid' t := by
        intro pid' t hne
        have h := countVotes_upsert_of_some req.vote_type hu hfc pid' t
        have hb1 : (w.photo_id == pid') = false := by
          rw [hwp]; exact beq_eq_false_iff_ne.mpr (Ne.symm hne)
        have hb2 : (req.photo_id == pid') = false := beq_eq_false_iff_ne.mpr (Ne.symm hne)
        rw [hb1, hb2] at h
        simpa using h
      have hU : (countVotes (upsertVote db.votes ⟨req.user_id, req.photo_id, req.vote_type⟩)
            req.photo_id "up" : Int)
          = (if w.vote_type = "up" then photo.upvotes - 1 else photo.upvotes)
              + (if req.vote_type = "up" then 1 else 0) := by
        have h := countVotes_upsert_of_some req.vote_type hu hfc req.photo_id "up"
        by_cases hb1 : w.vote_type = "up" <;> by_cases hb2 : req.vote_type = "up" <;>
          simp [hwp, hb1, hb2] at h <;> simp [hb1, hb2] <;> omega
      have hD : (countVotes (upsertVote db.votes ⟨req.user_id, req.photo_id, req.vote_type⟩)
            req.photo_id "down" : Int)
          = (if w.vote_type = "down" then photo.downvotes - 1 else photo.downvotes)
              + (if req.vote_type = "down" then 1 else 0) := by
        have h := countVotes_upsert_of_some req.vote_type hu hfc req.photo_id "down"
        by_cases hb1 : w.vote_type = "down" <;> by_cases hb2 : req.vote_type = "down" <;>
          simp [hwp, hb1, hb2] at h <;> simp [hb1, hb2] <;> omega
      exact ⟨VotesUnique_upsert _ _ _ hu, consistent_after hc hother hU hD⟩

/-! ### Sequences of reconciliations -/

theorem applyVotes_preserves (reqs : List VoteRequest) (db : DB)
    (hu : VotesUnique db.votes) (hc : Consistent db) :
    VotesUnique (applyVotes db reqs).votes ∧ Consistent (applyVotes db reqs) := by
  induction reqs generalizing db with
  | nil => exact ⟨hu, hc⟩
  | cons r rs ih =>
    have hstep := vote_photo_preserves db r hu hc
    exact ih _ hstep.1 hstep.2

/-- C1.  Count-consistency invariant: from a state whose counters match the
vote records (with the per-(user, photo) uniqueness the votes table's
conflict key enforces), any finite sequence of sequential POST `/vote`
operations with vote_type in up/down/none leaves every photo's `upvotes`
equal to its number of "up" vote records and `downvotes` equal to its number
of "down" records. -/
theorem vote_count_invariant_sequential (db : DB) (reqs : List VoteRequest)
    (hu : VotesUnique db.votes) (hc : Consistent db)
    (_hts : ∀ r ∈ reqs,
      r.vote_type = "up" ∨ r.vote_type = "down" ∨ r.vote_type = "none") :
    Consistent (applyVotes db reqs) :=
  (applyVotes_preserves reqs db hu hc).2

/-- Witness for C1 at a concrete database and request sequence. -/
theorem vote_count_invariant_sequential_witness :
    VotesUnique (DB.mk
        [⟨"p1", "o1", "loc", "url", none, none, 0, 0, 1, 0, 5⟩]
        [⟨"u1", "p1", "up"⟩] []).votes ∧
    Consistent (DB.mk
        [⟨"p1", "o1", "loc", "url", none, none, 0, 0, 1, 0, 5⟩]
        [⟨"u1", "p1", "up"⟩] []) ∧
    (∀ r ∈ [(⟨"p1", "u2", "down"⟩ : VoteRequest), ⟨"p1", "u1", "none"⟩],
      r.vote_type = "up" ∨ r.vote_type = "down" ∨ r.vote_type = "none") ∧
    Consistent (applyVotes
      (DB.mk [⟨"p1", "o1", "loc", "url", none, none, 0, 0, 1, 0, 5⟩]
        [⟨"u1", "p1", "up"⟩] [])
      [⟨"p1", "u2", "down"⟩, ⟨"p1", "u1", "none"⟩]) :=
  ⟨by decide, by decide, by decide,
   vote_count_invariant_sequential _ _ (by decide) (by decide) (by decide)⟩

/-- C7.  Counter non-negativity: under sequential operation from a
consistent state, the counters written by every prefix of POST `/vote`
operations are non-negative for every photo. -/
theorem vote_counters_never_negative (db : DB) (reqs : List VoteRequest) (n : Nat)
    (hu : VotesUnique db.votes) (hc : Consistent db) :
    ∀ p ∈ (applyVotes db (reqs.take n)).photos, 0 ≤ p.upvotes ∧ 0 ≤ p.downvotes := by
  have h := (applyVotes_preserves (reqs.take n) db hu hc).2
  intro p hp
  obtain ⟨h1, h2⟩ := h p hp
  refine ⟨?_, ?_⟩
  · rw [h1]; exact Int.natCast_nonneg _
  · rw [h2]; exact Int.natCast_nonneg _

/-- Witness for C7 at a concrete database and request sequence. -/
theorem vote_counters_never_negative_witness :
    VotesUnique (DB.mk
        [⟨"p1", "o1", "loc", "url", none, none, 0, 0, 0, 1, 5⟩]
        [⟨"u1", "p1", "down"⟩] []).votes ∧
    Consistent (DB.mk
        [⟨"p1", "o1", "loc", "url", none, none, 0, 0, 0, 1, 5⟩]
        [⟨"u1", "p1", "down"⟩] []) ∧
    (∀ p ∈ (applyVotes
        (DB.mk [⟨"p1", "o1", "loc", "url", none, none, 0, 0, 0, 1, 5⟩]
          [⟨"u1", "p1", "down"⟩] [])
        ([(⟨"p1", "u1", "none"⟩ : VoteRequest), ⟨"p1", "u1", "up"⟩].take 2)).photos,
      0 ≤ p.upvotes ∧ 0 ≤ p.downvotes) :=
  ⟨by decide, by decide,
   vote_counters_never_negative _ _ 2 (by decide) (by decide)⟩

/-! ### Concrete fixtures used by the witnesses -/

/-- A photo with one recorded "up" vote and matching counters. -/
def photoA : Photo := ⟨"p1", "o1", "loc", "url", none, none, 0, 0, 1, 0, 5⟩

/-- A database holding `photoA` and the matching "up" vote by user u1. -/
def dbA : DB := ⟨[photoA], [⟨"u1", "p1", "up"⟩], []⟩

/-- C2.  Switch law: a user whose current vote is "up" who submits "down"
(or symmetrically down-to-up) gets, in the single call, `upvotes` decreased
by exactly 1 and `downvotes` increased by exactly 1 relative to the current
state, and the stored (user, photo) vote record's type replaced by the new
type. -/
theorem vote_switch_law (db : DB) (uid pid : String) (w : Vote) (photo : Photo)
    (hw : findVote db.votes uid pid = some w)
    (hp : findPhoto db.photos pid = some photo) :
    (w.vote_type = "up" →
      (vote_photo db ⟨pid, uid, "down"⟩).2
          = Except.ok ⟨"down", photo.upvotes - 1, photo.downvotes + 1⟩ ∧
      findPhoto (vote_photo db ⟨pid, uid, "down"⟩).1.photos pid
          = some { photo with upvotes := photo.upvotes - 1,
                              downvotes := photo.downvotes + 1 } ∧
      findVote (vote_photo db ⟨pid, uid, "down"⟩).1.votes uid pid
          = some ⟨uid, pid, "down"⟩) ∧
    (w.vote_type = "down" →
      (vote_photo db ⟨pid, uid, "up"⟩).2
          = Except.ok ⟨"up", photo.upvotes + 1, photo.downvotes - 1⟩ ∧
      findPhoto (vote_photo db ⟨pid, uid, "up"⟩).1.photos pid
          = some { photo with upvotes := photo.upvotes + 1,
                              downvotes := photo.downvotes - 1 } ∧
      findVote (vote_photo db ⟨pid, uid, "up"⟩).1.votes uid pid
          = some ⟨uid, pid, "up"⟩) := by
  constructor
  · intro htype
    have hs := vote_photo_shape_upsert_prior db ⟨pid, uid, "down"⟩ hp hw (by simp)
    rw [hs]
    refine ⟨?_, ?_, ?_⟩
    · simp [htype]
    · dsimp only
      rw [findPhoto_update, hp]
      simp [htype]
    · dsimp only
      exact findVote_upsert db.votes uid pid "down"
  · intro htype
    have hs := vote_photo_shape_upsert_prior db ⟨pid, uid, "up"⟩ hp hw (by simp)
    rw [hs]
    refine ⟨?_, ?_, ?_⟩
    · simp [htype]
    · dsimp only
      rw [findPhoto_update, hp]
      simp [htype]
    · dsimp only
      exact findVote_upsert db.votes uid pid "up"

/-- Witness for C2: user u1 switches an "up" vote to "down" on `dbA`. -/
theorem vote_switch_law_witness :
    findVote dbA.votes "u1" "p1" = some ⟨"u1", "p1", "up"⟩ ∧
    findPhoto dbA.photos "p1" = some photoA ∧
    ((vote_photo dbA ⟨"p1", "u1", "down"⟩).2
        = Except.ok ⟨"down", photoA.upvotes - 1, photoA.downvotes + 1⟩ ∧
     findPhoto (vote_photo dbA ⟨"p1", "u1", "down"⟩).1.photos "p1"
        = some { photoA with upvotes := photoA.upvotes - 1,
                             downvotes := photoA.downvotes + 1 } ∧
     findVote (vote_photo dbA ⟨"p1", "u1", "down"⟩).1.votes "u1" "p1"
        = some ⟨"u1", "p1", "down"⟩) :=
  ⟨by decide, by decide,
   (vote_switch_law dbA "u1" "p1" ⟨"u1", "p1", "up"⟩ photoA
      (by decide) (by decide)).1 rfl⟩

theorem vote_photo_revote_fix (db : DB) (uid pid vt : String) (photo : Photo)
    (hpu : PhotosUnique db.photos) (hvu : VotesUnique db.votes)
    (hp : findPhoto db.photos pid = some photo)
    (hf : findVote db.votes uid pid = some ⟨uid, pid, vt⟩)
    (hnone : vt ≠ "none") :
    (vote_photo db ⟨pid, uid, vt⟩).1 = db := by
  have hs := vote_photo_shape_upsert_prior db ⟨pid, uid, vt⟩ hp hf hnone
  rw [hs]
  dsimp only
  have hself : ∀ p ∈ db.photos, p.id = pid →
      p.upvotes = (if vt = "up" then photo.upvotes - 1 else photo.upvotes)
          + (if vt = "up" then 1 else 0) ∧
      p.downvotes = (if vt = "down" then photo.downvotes - 1 else photo.downvotes)
          + (if vt = "down" then 1 else 0) := by
    intro p hpm hpid
    have := photos_unique_find hpu hp p hpm hpid
    subst this
    constructor
    · by_cases hb : vt = "up" <;> simp [hb]
    · by_cases hb : vt = "down" <;> simp [hb]
  cases db with
  | mk photos votes storage =>
    simp only [DB.mk.injEq]
    exact ⟨updatePhotoCounts_eq_self hself, upsertVote_eq_self hvu hf, trivial⟩

theorem vote_photo_upsert_components (db : DB) (req : VoteRequest) (photo : Photo)
    (hp : findPhoto db.photos req.photo_id = some photo)
    (hnone : req.vote_type ≠ "none") :
    ∃ U D, (vote_photo db req).1
      = ⟨updatePhotoCounts db.photos req.photo_id U D,
         upsertVote db.votes ⟨req.user_id, req.photo_id, req.vote_type⟩, db.storage⟩ := by
  rcases hfc : findVote db.votes req.user_id req.photo_id with _ | w
  · exact ⟨photo.upvotes + (if req.vote_type = "up" then 1 else 0),
           photo.downvotes + (if req.vote_type = "down" then 1 else 0),
           by rw [vote_photo_shape_upsert_noprior db req hp hfc hnone]⟩
  · exact ⟨(if w.vote_type = "up" then photo.upvotes - 1 else photo.upvotes)
             + (if req.vote_type = "up" then 1 else 0),
           (if w.vote_type = "down" then photo.downvotes - 1 else photo.downvotes)
             + (if req.vote_type = "down" then 1 else 0),
           by rw [vote_photo_shape_upsert_prior db req hp hfc hnone]⟩

/-- C3.  Idempotence: re-submitting the same up/down vote for the same
(user, photo) pair immediately after a first submission leaves the entire
database state — counters and the stored vote record — unchanged relative
to the state after the first call. -/
theorem vote_idempotent (db : DB) (uid pid vt : String) (photo : Photo)
    (hpu : PhotosUnique db.photos) (hvu : VotesUnique db.votes)
    (hp : findPhoto db.photos pid = some photo)
    (hvt : vt = "up" ∨ vt = "down") :
    (vote_photo (vote_photo db ⟨pid, uid, vt⟩).1 ⟨pid, uid, vt⟩).1
      = (vote_photo db ⟨pid, uid, vt⟩).1 := by
  have hnone : vt ≠ "none" := by rcases hvt with h | h <;> rw [h] <;> decide
  obtain ⟨U, D, hcomp⟩ := vote_photo_upsert_components db ⟨pid, uid, vt⟩ photo hp hnone
  have hp1 : findPhoto (vote_photo db ⟨pid, uid, vt⟩).1.photos pid
      = some { photo with upvotes := U, downvotes := D } := by
    rw [hcomp]; dsimp only; rw [findPhoto_update, hp]; rfl
  have hf1 : findVote (vote_photo db ⟨pid, uid, vt⟩).1.votes uid pid
      = some ⟨uid, pid, vt⟩ := by
    rw [hcomp]; dsimp only; exact findVote_upsert db.votes uid pid vt
  have hpu1 : PhotosUnique (vote_photo db ⟨pid, uid, vt⟩).1.photos := by
    rw [hcomp]; dsimp only; exact PhotosUnique_update _ _ _ hpu
  have hvu1 : VotesUnique (vote_photo db ⟨pid, uid, vt⟩).1.votes := by
    rw [hcomp]; dsimp only; exact VotesUnique_upsert _ _ _ hvu
  exact vote_photo_revote_fix _ uid pid vt _ hpu1 hvu1 hp1 hf1 hnone

/-- Witness for C3: user u2 votes "up" twice in a row on `dbA`. -/
theorem vote_idempotent_witness :
    PhotosUnique dbA.photos ∧ VotesUnique dbA.votes ∧
    findPhoto dbA.photos "p1" = some photoA ∧
    (("up" : String) = "up" ∨ ("up" : String) = "down") ∧
    (vote_photo (vote_photo dbA ⟨"p1", "u2", "up"⟩).1 ⟨"p1", "u2", "up"⟩).1
      = (vote_photo dbA ⟨"p1", "u2", "up"⟩).1 :=
  ⟨by decide, by decide, by decide, Or.inl rfl,
   vote_idempotent dbA "u2" "p1" "up" photoA (by decide) (by decide) (by decide)
     (Or.inl rfl)⟩

/-- A database where user u1 already holds a "down" vote on the only photo,
with counters matching. -/
def dbC4 : DB :=
  ⟨[⟨"p1", "o1", "loc", "url", none, none, 0, 0, 0, 1, 5⟩], [⟨"u1", "p1", "down"⟩], []⟩

/-- C4 counterexample: for a user holding a prior "down" vote, voting "up"
and then "none" does NOT return the counters to their values before the
"up" vote — the prior switch already moved `downvotes` from 1 to 0, and the
revocation leaves (0, 0) instead of the original (0, 1). -/
theorem vote_revocation_counterexample :
    ¬ (((vote_photo (vote_photo dbC4 ⟨"p1", "u1", "up"⟩).1 ⟨"p1", "u1", "none"⟩).1.photos.map
          (fun p => (p.upvotes, p.downvotes)))
        = dbC4.photos.map (fun p => (p.upvotes, p.downvotes))) := by decide

/-- C4 (amended).  Revocation law for a user with no prior vote record:
voting "up" then "none" returns the photo's counters to their pre-vote
values and deletes the (user, photo) vote record, restoring the votes table
exactly; and a "none" vote when no record exists is a no-op delete that
leaves the votes table unchanged. -/
theorem vote_revocation_no_prior (db : DB) (uid pid : String) (photo : Photo)
    (hp : findPhoto db.photos pid = some photo)
    (hf : findVote db.votes uid pid = none) :
    (findPhoto
        (vote_photo (vote_photo db ⟨pid, uid, "up"⟩).1 ⟨pid, uid, "none"⟩).1.photos pid
        = some photo ∧
     (vote_photo (vote_photo db ⟨pid, uid, "up"⟩).1 ⟨pid, uid, "none"⟩).1.votes
        = db.votes ∧
     findVote
        (vote_photo (vote_photo db ⟨pid, uid, "up"⟩).1 ⟨pid, uid, "none"⟩).1.votes uid pid
        = none) ∧
    (vote_photo db ⟨pid, uid, "none"⟩).1.votes = db.votes := by
  have hs1 := vote_photo_shape_upsert_noprior db ⟨pid, uid, "up"⟩ hp hf (by simp)
  have hp1 : findPhoto (vote_photo db ⟨pid, uid, "up"⟩).1.photos pid
      = some { photo with upvotes := photo.upvotes + 1 } := by
    rw [hs1]; dsimp only; rw [findPhoto_update, hp]; simp
  have hv1 : (vote_photo db ⟨pid, uid, "up"⟩).1.votes = db.votes ++ [⟨uid, pid, "up"⟩] := by
    rw [hs1]; dsimp only; exact upsertVote_eq_append hf "up"
  have hf1 : findVote (vote_photo db ⟨pid, uid, "up"⟩).1.votes uid pid
      = some ⟨uid, pid, "up"⟩ := by
    rw [hs1]; dsimp only; exact findVote_upsert db.votes uid pid "up"
  have hs2 := vote_photo_shape_none_prior (vote_photo db ⟨pid, uid, "up"⟩).1
    ⟨pid, uid, "none"⟩ hp1 hf1 rfl
  have hvotes2 : (vote_photo (vote_photo db ⟨pid, uid, "up"⟩).1 ⟨pid, uid, "none"⟩).1.votes
      = db.votes := by
    rw [hs2]; dsimp only
    rw [if_neg (show ¬ ("up" : String) = "" by decide)]
    rw [hv1]
    exact deleteVote_append_new hf "up"
  refine ⟨⟨?_, hvotes2, ?_⟩, ?_⟩
  · rw [hs2]; dsimp only
    rw [findPhoto_update, hp1]
    simp
  · rw [hvotes2]
    exact hf
  · rw [vote_photo_shape_none_noprior db ⟨pid, uid, "none"⟩ hp hf rfl]

/-- Witness for the amended C4: user u2 (no prior record) votes "up" then
"none" on `dbA`. -/
theorem vote_revocation_no_prior_witness :
    findPhoto dbA.photos "p1" = some photoA ∧
    findVote dbA.votes "u2" "p1" = none ∧
    ((findPhoto
        (vote_photo (vote_photo dbA ⟨"p1", "u2", "up"⟩).1 ⟨"p1", "u2", "none"⟩).1.photos "p1"
        = some photoA ∧
      (vote_photo (vote_photo dbA ⟨"p1", "u2", "up"⟩).1 ⟨"p1", "u2", "none"⟩).1.votes
        = dbA.votes ∧
      findVote
        (vote_photo (vote_photo dbA ⟨"p1", "u2", "up"⟩).1 ⟨"p1", "u2", "none"⟩).1.votes
        "u2" "p1" = none) ∧
     (vote_photo dbA ⟨"p1", "u2", "none"⟩).1.votes = dbA.votes) :=
  ⟨by decide, by decide,
   vote_revocation_no_prior dbA "u2" "p1" photoA (by decide) (by decide)⟩

/-- C5.  Voting on a photo id absent from the photos table performs no
writes (the returned state is exactly the input state), but the
client-facing failure is status 500, not a 4xx: the handler's own
`HTTPException(404)` is caught by its blanket `except Exception` and
re-raised as `HTTPException(500, str(e))`. -/
theorem vote_missing_photo_is_500_no_writes :
    vote_photo dbA ⟨"missing", "u9", "up"⟩
      = (dbA, Except.error ⟨500, "404: Photo not found"⟩) := rfl

/-- An upload form whose file carries no filename. -/
def inpNoFile : UploadInput :=
  ⟨"u1", "loc", "t", "d", 0, 0, none, "bytes", some "image/png"⟩

/-- An upload form whose file carries an empty (hence Python-falsy)
filename. -/
def inpEmptyFile : UploadInput :=
  ⟨"u1", "loc", "t", "d", 0, 0, some "", "bytes", some "image/png"⟩

/-- C6.  Uploading a file without a filename performs no mutation (no
object-store write, no photo row), but the client-facing failure is
status 500, not a 4xx: the handler's own `HTTPException(400)` is caught by
its blanket `except Exception` and re-raised as status 500. -/
theorem upload_missing_filename_is_500_no_mutation :
    upload_photo dbA inpNoFile "uuid1" (fun s => s) "id1" 7
      = (dbA, Except.error ⟨500, "400: File must have a filename"⟩) ∧
    upload_photo dbA inpEmptyFile "uuid1" (fun s => s) "id1" 7
      = (dbA, Except.error ⟨500, "400: File must have a filename"⟩) := ⟨rfl, rfl⟩

/-- C10.  Implicit behaviour for an unrecognized vote_type: the request is
not rejected — the prior vote's counter contribution is removed, neither
counter is incremented, the unrecognized type is upserted verbatim as the
stored vote record, the counters are persisted, and the call returns a
success result echoing the requested vote_type. -/
theorem vote_unrecognized_type (db : DB) (uid pid vt : String) (photo : Photo)
    (hp : findPhoto db.photos pid = some photo)
    (h1 : vt ≠ "up") (h2 : vt ≠ "down") (h3 : vt ≠ "none") :
    (vote_photo db ⟨pid, uid, vt⟩).2
      = Except.ok ⟨vt,
          (if ((findVote db.votes uid pid).map (fun v => v.vote_type)) = some "up"
           then photo.upvotes - 1 else photo.upvotes),
          (if ((findVote db.votes uid pid).map (fun v => v.vote_type)) = some "down"
           then photo.downvotes - 1 else photo.downvotes)⟩ ∧
    findVote (vote_photo db ⟨pid, uid, vt⟩).1.votes uid pid = some ⟨uid, pid, vt⟩ ∧
    findPhoto (vote_photo db ⟨pid, uid, vt⟩).1.photos pid
      = some { photo with
          upvotes :=
            (if ((findVote db.votes uid pid).map (fun v => v.vote_type)) = some "up"
             then photo.upvotes - 1 else photo.upvotes),
          downvotes :=
            (if ((findVote db.votes uid pid).map (fun v => v.vote_type)) = some "down"
             then photo.downvotes - 1 else photo.downvotes) } := by
  rcases hfc : findVote db.votes uid pid with _ | w
  · have hs := vote_photo_shape_upsert_noprior db ⟨pid, uid, vt⟩ hp hfc h3
    refine ⟨?_, ?_, ?_⟩
    · rw [hs]; dsimp only; simp [h1, h2]
    · rw [hs]; dsimp only; exact findVote_upsert db.votes uid pid vt
    · rw [hs]; dsimp only; rw [findPhoto_update, hp]; simp [h1, h2]
  · have hs := vote_photo_shape_upsert_prior db ⟨pid, uid, vt⟩ hp hfc h3
    refine ⟨?_, ?_, ?_⟩
    · rw [hs]; dsimp only; simp [h1, h2]
    · rw [hs]; dsimp only; exact findVote_upsert db.votes uid pid vt
    · rw [hs]; dsimp only; rw [findPhoto_update, hp]; simp [h1, h2]

/-- Witness for C10: user u1, who holds an "up" vote, submits the
unrecognized vote_type "sideways" on `dbA`. -/
theorem vote_unrecognized_type_witness :
    findPhoto dbA.photos "p1" = some photoA ∧
    ("sideways" : String) ≠ "up" ∧ ("sideways" : String) ≠ "down" ∧
    ("sideways" : String) ≠ "none" ∧
    ((vote_photo dbA ⟨"p1", "u1", "sideways"⟩).2
      = Except.ok ⟨"sideways",
          (if ((findVote dbA.votes "u1" "p1").map (fun v => v.vote_type)) = some "up"
           then photoA.upvotes - 1 else photoA.upvotes),
          (if ((findVote dbA.votes "u1" "p1").map (fun v => v.vote_type)) = some "down"
           then photoA.downvotes - 1 else photoA.downvotes)⟩ ∧
     findVote (vote_photo dbA ⟨"p1", "u1", "sideways"⟩).1.votes "u1" "p1"
       = some ⟨"u1", "p1", "sideways"⟩ ∧
     findPhoto (vote_photo dbA ⟨"p1", "u1", "sideways"⟩).1.photos "p1"
       = some { photoA with
           upvotes :=
             (if ((findVote dbA.votes "u1" "p1").map (fun v => v.vote_type)) = some "up"
              then photoA.upvotes - 1 else photoA.upvotes),
           downvotes :=
             (if ((findVote dbA.votes "u1" "p1").map (fun v => v.vote_type)) = some "down"
              then photoA.downvotes - 1 else photoA.downvotes) }) :=
  ⟨by decide, by decide, by decide, by decide,
   vote_unrecognized_type dbA "u1" "p1" "sideways" photoA
     (by decide) (by decide) (by decide) (by decide)⟩

/-! ### The listing endpoints -/

theorem dictGet_votes {votes : List Vote} {viewer key : String} {ids : List String}
    (hv : VotesUnique votes) (hkey : key ∈ ids) :
    dictGet ((votes.filter (fun v => v.user_id == viewer && ids.contains v.photo_id)).map
        (fun v => (v.photo_id, v.vote_type))) key
      = (findVote votes viewer key).map (fun v => v.vote_type) := by
  unfold dictGet
  rw [List.filter_map]
  have h1 : (votes.filter (fun v => v.user_id == viewer && ids.contains v.photo_id)).filter
        ((fun kv : String × String => kv.1 == key) ∘ (fun v => (v.photo_id, v.vote_type)))
      = votes.filter (vkey viewer key) := by
    rw [List.filter_filter]
    apply List.filter_congr
    intro v _
    show ((v.photo_id == key) && (v.user_id == viewer && ids.contains v.photo_id))
        = vkey viewer key v
    unfold vkey
    cases hpk : v.photo_id == key
    · simp
    · have hmem : v.photo_id ∈ ids := by
        rw [beq_iff_eq.mp hpk]
        exact hkey
      simp [hmem]
  rw [h1, List.map_map]
  rcases hf : findVote votes viewer key with _ | w
  · rw [filter_vkey_nil hf]
    rfl
  · rw [filter_vkey_singleton hv hf]
    rfl

theorem annotate_eq (votes : List Vote) (viewer : String) (photos : List Photo)
    (hv : VotesUnique votes) :
    annotate votes viewer photos
      = photos.map (fun p => toResponse p
          ((findVote votes viewer p.id).map (fun v => v.vote_type))) := by
  unfold annotate
  apply List.map_congr_left
  intro p hp
  congr 1
  exact dictGet_votes hv (List.mem_map_of_mem (fun p => p.id) hp)

theorem newestFirst_perm (photos : List Photo) : List.Perm (newestFirst photos) photos :=
  List.perm_insertionSort createdDesc photos

theorem newestFirst_sorted (photos : List Photo) :
    (newestFirst photos).Pairwise (fun a b => b.created_at ≤ a.created_at) :=
  List.sorted_insertionSort createdDesc photos

/-- A database holding one photo at location "L" and a vote whose user id is
the empty string. -/
def dbC8 : DB :=
  ⟨[⟨"p1", "o1", "L", "url", none, none, 0, 0, 1, 0, 5⟩], [⟨"", "p1", "up"⟩], []⟩

/-- C8 counterexample: with the viewer_id query parameter supplied as the
empty string — a value the votes table can genuinely hold as a user id —
the handler's `if viewer_id and photos:` guard treats it as falsy, so the
returned photo is NOT annotated with that viewer's stored vote. -/
theorem listing_empty_viewer_counterexample :
    ¬ (∀ r ∈ (get_location_photos dbC8 "L" (some "")).2,
        r.user_vote = (findVote dbC8.votes "" r.id).map (fun v => v.vote_type)) := by
  decide

/-- C8 (amended).  Each listing endpoint returns exactly the photos whose
filter column (location_name, resp. uploader user_id) equals the path
parameter, ordered by creation timestamp newest first; with no viewer_id
the annotation is null, and with a NON-EMPTY viewer_id each returned photo
is annotated with that viewer's stored vote type (null when the viewer has
no vote record).  A supplied-but-empty viewer_id is falsy in the handler's
guard and yields no annotation. -/
theorem listing_photos_spec (db : DB) (loc usr : String)
    (hv : VotesUnique db.votes) :
    (∃ l, List.Perm l (db.photos.filter (fun p => p.location_name == loc)) ∧
       l.Pairwise (fun a b => b.created_at ≤ a.created_at) ∧
       (get_location_photos db loc none).2 = l.map (fun p => toResponse p none) ∧
       (∀ viewer, viewer ≠ "" →
         (get_location_photos db loc (some viewer)).2
           = l.map (fun p => toResponse p
               ((findVote db.votes viewer p.id).map (fun v => v.vote_type))))) ∧
    (∃ l, List.Perm l (db.photos.filter (fun p => p.user_id == usr)) ∧
       l.Pairwise (fun a b => b.created_at ≤ a.created_at) ∧
       (get_user_photos db usr none).2 = l.map (fun p => toResponse p none) ∧
       (∀ viewer, viewer ≠ "" →
         (get_user_photos db usr (some viewer)).2
           = l.map (fun p => toResponse p
               ((findVote db.votes viewer p.id).map (fun v => v.vote_type))))) := by
  constructor
  · refine ⟨newestFirst (db.photos.filter (fun p => p.location_name == loc)),
      newestFirst_perm _, newestFirst_sorted _, ?_, ?_⟩
    · unfold get_location_photos
      dsimp only
      rw [if_neg (by simp [pyTruthy])]
    · intro viewer hne
      unfold get_location_photos
      dsimp only
      have ht : pyTruthy (some viewer) = true := by simp [pyTruthy, hne]
      by_cases hemp :
          (newestFirst (db.photos.filter (fun p => p.location_name == loc))).isEmpty = true
      · rw [if_neg (by simp [hemp])]
        have hnil : newestFirst (db.photos.filter (fun p => p.location_name == loc)) = [] :=
          List.isEmpty_iff.mp hemp
        rw [hnil]
        rfl
      · rw [if_pos (by simp [ht, hemp])]
        exact annotate_eq db.votes viewer _ hv
  · refine ⟨newestFirst (db.photos.filter (fun p => p.user_id == usr)),
      newestFirst_perm _, newestFirst_sorted _, ?_, ?_⟩
    · unfold get_user_photos
      dsimp only
      rw [if_neg (by simp [pyTruthy])]
    · intro viewer hne
      unfold get_user_photos
      dsimp only
      have ht : pyTruthy (some viewer) = true := by simp [pyTruthy, hne]
      by_cases hemp :
          (newestFirst (db.photos.filter (fun p => p.user_id == usr))).isEmpty = true
      · rw [if_neg (by simp [hemp])]
        have hnil : newestFirst (db.photos.filter (fun p => p.user_id == usr)) = [] :=
          List.isEmpty_iff.mp hemp
        rw [hnil]
        rfl
      · rw [if_pos (by simp [ht, hemp])]
        exact annotate_eq db.votes viewer _ hv

/-- Witness for the amended C8: the location listing on `dbA`. -/
theorem listing_photos_spec_witness :
    ∃ l, List.Perm l (dbA.photos.filter (fun p => p.location_name == "loc")) ∧
       l.Pairwise (fun a b => b.created_at ≤ a.created_at) ∧
       (get_location_photos dbA "loc" none).2 = l.map (fun p => toResponse p none) ∧
       (∀ viewer, viewer ≠ "" →
         (get_location_photos dbA "loc" (some viewer)).2
           = l.map (fun p => toResponse p
               ((findVote dbA.votes viewer p.id).map (fun v => v.vote_type)))) :=
  (listing_photos_spec dbA "loc" "o1" (by decide)).1

/-! ### Frame conditions -/

theorem filter_not_vkey_delete (votes : List Vote) (uid pid : String) :
    (deleteVote votes uid pid).filter (fun v => !(vkey uid pid v))
      = votes.filter (fun v => !(vkey uid pid v)) := by
  unfold deleteVote
  rw [List.filter_filter]
  apply List.filter_congr
  intro v _
  cases vkey uid pid v <;> rfl

theorem filter_not_vkey_upsert (votes : List Vote) (uid pid vt : String) :
    (upsertVote votes ⟨uid, pid, vt⟩).filter (fun v => !(vkey uid pid v))
      = votes.filter (fun v => !(vkey uid pid v)) := by
  unfold upsertVote
  by_cases ha : votes.any (vkey uid pid) = true
  · rw [if_pos (by simpa using ha)]
    rw [List.filter_map]
    set f : Vote → Vote := fun w =>
      if vkey uid pid w = true then { w with vote_type := vt } else w with hfdef
    have h1 : votes.filter ((fun v => !(vkey uid pid v)) ∘ f)
        = votes.filter (fun v => !(vkey uid pid v)) := by
      apply List.filter_congr
      intro v _
      show (!(vkey uid pid (f v))) = (!(vkey uid pid v))
      obtain ⟨hk1, hk2⟩ := upsert_map_keys uid pid vt v
      unfold vkey
      rw [hfdef]
      rw [hk1, hk2]
    rw [h1]
    have h2 : ∀ v ∈ votes.filter (fun v => !(vkey uid pid v)), f v = v := by
      intro v hv
      have hnk := (List.mem_filter.mp hv).2
      rw [hfdef]
      simp only [Bool.not_eq_true'] at hnk
      simp [hnk]
    calc (votes.filter (fun v => !(vkey uid pid v))).map f
        = (votes.filter (fun v => !(vkey uid pid v))).map id := List.map_congr_left h2
      _ = _ := List.map_id _
  · rw [if_neg (by simpa using ha)]
    rw [List.filter_append]
    have h3 : List.filter (fun v => !(vkey uid pid v)) [(⟨uid, pid, vt⟩ : Vote)] = [] := by
      simp [vkey_self]
    rw [h3, List.append_nil]

/-- C9.  Frame condition: the upload endpoint only appends photo rows
(leaving every existing row, counters included, unchanged) and writes no
vote; the listing endpoints leave the whole database unchanged; and a
successful POST `/vote` changes at most the targeted photo's two counter
fields (all other columns and all rows with a different id are untouched,
being rewritten only when their id equals the target's), the single
(user_id, photo_id) vote record (every other vote record is preserved),
and nothing in the object store. -/
theorem frame_conditions (db : DB) :
    (∀ inp gu f gid gts,
        (upload_photo db inp gu f gid gts).1.votes = db.votes ∧
        ∃ tail, (upload_photo db inp gu f gid gts).1.photos = db.photos ++ tail) ∧
    (∀ loc viewer, (get_location_photos db loc viewer).1 = db) ∧
    (∀ usr viewer, (get_user_photos db usr viewer).1 = db) ∧
    (∀ req s, (vote_photo db req).2 = Except.ok s →
        (∃ U D, (vote_photo db req).1.photos
            = db.photos.map (fun p =>
                if p.id == req.photo_id
                then { p with upvotes := U, downvotes := D } else p)) ∧
        (vote_photo db req).1.votes.filter (fun v => !(vkey req.user_id req.photo_id v))
          = db.votes.filter (fun v => !(vkey req.user_id req.photo_id v)) ∧
        (vote_photo db req).1.storage = db.storage) := by
  refine ⟨?_, ?_, ?_, ?_⟩
  · intro inp gu f gid gts
    by_cases h : pyTruthy inp.filename = true
    · unfold upload_photo
      rw [if_pos h]
      exact ⟨rfl, ⟨_, rfl⟩⟩
    · unfold upload_photo
      rw [if_neg h]
      exact ⟨rfl, ⟨[], by simp⟩⟩
  · intro loc viewer
    unfold get_location_photos
    dsimp only
    split <;> rfl
  · intro usr viewer
    unfold get_user_photos
    dsimp only
    split <;> rfl
  · intro req s hok
    rcases hpc : findPhoto db.photos req.photo_id with _ | photo
    · rw [vote_photo_shape_notfound db req hpc] at hok
      cases hok
    by_cases hnone : req.vote_type = "none"
    · rcases hfc : findVote db.votes req.user_id req.photo_id with _ | w
      · rw [vote_photo_shape_none_noprior db req hpc hfc hnone]
        exact ⟨⟨_, _, rfl⟩, rfl, rfl⟩
      · rw [vote_photo_shape_none_prior db req hpc hfc hnone]
        refine ⟨⟨_, _, rfl⟩, ?_, rfl⟩
        dsimp only
        by_cases hemp : w.vote_type = ""
        · rw [if_pos hemp]
        · rw [if_neg hemp]
          exact filter_not_vkey_delete db.votes req.user_id req.photo_id
    · rcases hfc : findVote db.votes req.user_id req.photo_id with _ | w
      · rw [vote_photo_shape_upsert_noprior db req hpc hfc hnone]
        exact ⟨⟨_, _, rfl⟩, filter_not_vkey_upsert db.votes req.user_id req.photo_id
          req.vote_type, rfl⟩
      · rw [vote_photo_shape_upsert_prior db req hpc hfc hnone]
        exact ⟨⟨_, _, rfl⟩, filter_not_vkey_upsert db.votes req.user_id req.photo_id
          req.vote_type, rfl⟩

/-- Witness for C9: the four frame facts instantiated on `dbA` — an upload
without a filename, both listings, and user u2 successfully voting "up". -/
theorem frame_conditions_witness :
    ((upload_photo dbA inpNoFile "uuid1" (fun s => s) "id1" 7).1.votes = dbA.votes ∧
     ∃ tail, (upload_photo dbA inpNoFile "uuid1" (fun s => s) "id1" 7).1.photos
        = dbA.photos ++ tail) ∧
    (get_location_photos dbA "loc" (some "u1")).1 = dbA ∧
    (get_user_photos dbA "o1" (some "u1")).1 = dbA ∧
    ((∃ U D, (vote_photo dbA ⟨"p1", "u2", "up"⟩).1.photos
         = dbA.photos.map (fun p =>
             if p.id == "p1" then { p with upvotes := U, downvotes := D } else p)) ∧
     (vote_photo dbA ⟨"p1", "u2", "up"⟩).1.votes.filter (fun v => !(vkey "u2" "p1" v))
        = dbA.votes.filter (fun v => !(vkey "u2" "p1" v)) ∧
     (vote_photo dbA ⟨"p1", "u2", "up"⟩).1.storage = dbA.storage) :=
  ⟨(frame_conditions dbA).1 inpNoFile "uuid1" (fun s => s) "id1" 7,
   (frame_conditions dbA).2.1 "loc" (some "u1"),
   (frame_conditions dbA).2.2.1 "o1" (some "u1"),
   (frame_conditions dbA).2.2.2 ⟨"p1", "u2", "up"⟩ ⟨"up", 2, 0⟩ rfl⟩

end Hotspot
